import Mathlib

/-!
# Snake-Game: the simulation loop and the local leaderboard

A shallow embedding of `src/public/script.js`.

* The global variables `snake, dir, food, superFood, superFoodTimer, score, streak, paused,
  gameSpeed` become the fields of `State`; every function that mutates them becomes a function
  from states to states.
* `rows` and `cols` (`canvas.width / size`, `canvas.height / size`) come from the page's canvas
  element, which is not part of the script: they are parameters, taken to be integers.
* JavaScript numbers are modelled by `Int` (cell coordinates, score, streak, timestamps) and
  by `ℚ` (`gameSpeed`, which moves in steps of `0.5`, and the bonus probability).
  `%` is the truncating remainder `Int.tmod`, `Math.floor(a / b)` for a positive literal `b`
  is `/` on `Int`.
* `Math.random()` and `Date.now()` are inputs of the tick (`Rand`).  The `do ... while` loop of
  `spawnFood` reads its candidates from a finite list of draws and yields `none` when every
  supplied draw is rejected, that is when the loop has not stopped within the draws given.
* Sound, drawing and the DOM are not modelled, except for the two pieces of host state that
  `gameOver` changes: the repeating timer and the game-over dialog.
-/

namespace SnakeGame

/-! ## Data model -/

/-- A cell object with fields x and y, also used for the direction vector. -/
structure Cell where
  x : Int
  y : Int
deriving DecidableEq, Repr

/-- The global variables of the script, with the timer handle and the dialog's visibility. -/
structure State where
  snake : List Cell
  dir : Cell
  food : Cell
  superFood : Option Cell
  superFoodTimer : Int
  score : Int
  streak : Int
  paused : Bool
  gameSpeed : ℚ
  /-- True when window.gameInterval is an armed repeating timer. -/
  gameInterval : Bool
  /-- True when the style.display of the gameOverModal element is flex. -/
  gameOverModal : Bool
deriving DecidableEq

/-- The outside values one call of gameLoop reads. -/
structure Rand where
  /-- Successive candidates of the loop in the spawnFood call that replaces the food. -/
  foodDraws : List Cell
  /-- The value of Math.random() compared with superFoodChance. -/
  roll : ℚ
  /-- Successive candidates of the loop in the spawnFood call that places the bonus item. -/
  superDraws : List Cell
  /-- The value of Date.now() stored in superFoodTimer. -/
  spawnTime : Int
  /-- The value of Date.now() in the expiry test. -/
  now : Int

/-- The values of the key property that the keydown handler tells apart; p stands for every key
whose lower-case form is the letter p. -/
inductive Key where
  | arrowUp | arrowDown | arrowLeft | arrowRight | p | m | enter | other
deriving DecidableEq, Repr

/-! ## The simulation -/

/-- The test `snake.some(s => s.x === c.x && s.y === c.y)`. -/
def onSnake (snake : List Cell) (c : Cell) : Bool :=
  snake.any (fun s => s.x == c.x && s.y == c.y)

/-- The test `superFood && superFood.x === c.x && superFood.y === c.y`. -/
def onSuperFood (superFood : Option Cell) (c : Cell) : Bool :=
  match superFood with
  | none => false
  | some sf => sf.x == c.x && sf.y == c.y

/-- The function spawnFood: the first drawn candidate that is neither on the snake nor on the
bonus item. Each draw is the pair `Math.floor(Math.random() * rows)`,
`Math.floor(Math.random() * cols)` of one pass through the loop. -/
def spawnFood (snake : List Cell) (superFood : Option Cell) : List Cell → Option Cell
  | [] => none
  | newFood :: draws =>
    if onSnake snake newFood || onSuperFood superFood newFood then
      spawnFood snake superFood draws
    else some newFood

/-- The values of the globals before the first call of initGame: only gameSpeed is initialised,
the others are undefined (an undefined superFood and paused are falsy). -/
def boot : State :=
  { snake := [], dir := ⟨0, 0⟩, food := ⟨0, 0⟩, superFood := none, superFoodTimer := 0,
    score := 0, streak := 0, paused := false, gameSpeed := 150,
    gameInterval := false, gameOverModal := false }

/-- The function initGame. The food is drawn while superFood still holds its previous value. -/
def initGame (s : State) (draws : List Cell) : Option State :=
  let snake : List Cell := [⟨5, 5⟩]
  match spawnFood snake s.superFood draws with
  | none => none
  | some food =>
    some { s with
      snake := snake, dir := ⟨1, 0⟩, food := food, superFood := none, superFoodTimer := 0,
      score := 0, streak := 0, paused := false, gameSpeed := 150, gameOverModal := false }

/-- The function startGame: the repeating timer is armed. -/
def startGame (s : State) : State :=
  { s with gameInterval := true }

/-- The function updateGameSpeed: the timer is cleared and armed again with the new delay. -/
def updateGameSpeed (s : State) : State :=
  { s with gameInterval := true }

/-- The function gameOver: the timer is cleared and the dialog is shown; no game variable is
written. -/
def gameOver (s : State) : State :=
  { s with gameInterval := false, gameOverModal := true }

/-- The cell computed at the start of gameLoop; none when snake[0] is undefined. -/
def newHead (rows cols : Nat) (s : State) : Option Cell :=
  match s.snake with
  | [] => none
  | s0 :: _ =>
    some ⟨(s0.x + s.dir.x + rows).tmod rows, (s0.y + s.dir.y + cols).tmod cols⟩

/-- The probability `Math.min(0.4, 0.15 + (streak * 0.02))`. -/
def superFoodChance (streak : Int) : ℚ :=
  min (2 / 5) (3 / 20 + (streak : ℚ) * (1 / 50))

/-- The end of gameLoop, shared by the three branches: expiry of the bonus item, then
updateGameSpeed. -/
def finishTick (s : State) (r : Rand) : State :=
  updateGameSpeed
    (if s.superFood.isSome && decide (r.now - s.superFoodTimer > 6000) then
      { s with superFood := none }
    else s)

/-- The function gameLoop. The result is none when the call does not return a state: snake[0]
is undefined, or a spawnFood loop rejects every draw supplied. -/
def gameLoop (rows cols : Nat) (s : State) (r : Rand) : Option State :=
  if s.paused then some s
  else
    match newHead rows cols s with
    | none => none
    | some head =>
      if onSnake s.snake head then some (gameOver s)
      else
        let s1 : State := { s with snake := head :: s.snake }
        if head.x == s1.food.x && head.y == s1.food.y then
          let bonus := s1.streak / 5
          let s2 : State := { s1 with score := s1.score + (1 + bonus), streak := s1.streak + 1 }
          match spawnFood s2.snake s2.superFood r.foodDraws with
          | none => none
          | some food =>
            let s3 : State := { s2 with food := food, gameSpeed := max 100 (s2.gameSpeed - 1) }
            if s3.superFood.isNone && decide (r.roll < superFoodChance s3.streak) then
              match spawnFood s3.snake s3.superFood r.superDraws with
              | none => none
              | some sf =>
                some (finishTick
                  { s3 with superFood := some sf, superFoodTimer := r.spawnTime } r)
            else some (finishTick s3 r)
        else if onSuperFood s1.superFood head then
          some (finishTick
            { s1 with score := s1.score + (5 + s1.streak / 3), streak := s1.streak + 1,
                      superFood := none } r)
        else
          some (finishTick
            { s1 with snake := s1.snake.dropLast, streak := 0,
                      gameSpeed := min 150 (s1.gameSpeed + 1 / 2) } r)

/-- The keydown handler, as far as it writes game variables. The m key only toggles the music;
the Enter key calls submitScore, whose effect on the game is a later initGame and startGame. -/
def keydown (s : State) (key : Key) : State :=
  if s.paused && key != Key.p then s
  else if key == Key.arrowUp && s.dir.y == 0 then { s with dir := ⟨0, -1⟩ }
  else if key == Key.arrowDown && s.dir.y == 0 then { s with dir := ⟨0, 1⟩ }
  else if key == Key.arrowLeft && s.dir.x == 0 then { s with dir := ⟨-1, 0⟩ }
  else if key == Key.arrowRight && s.dir.x == 0 then { s with dir := ⟨1, 0⟩ }
  else if key == Key.p then { s with paused := !s.paused }
  else s

/-- The states the page can be in: DOMContentLoaded runs initGame and startGame; skipScore and
submitScore run them again; the timer calls gameLoop while it is armed; keys arrive between
ticks. The grid has positive dimensions. -/
inductive Reachable (rows cols : Nat) : State → Prop where
  | load (draws : List Cell) (s : State) :
      0 < rows → 0 < cols → initGame boot draws = some s → Reachable rows cols (startGame s)
  | restart (s : State) (draws : List Cell) (t : State) :
      Reachable rows cols s → initGame s draws = some t → Reachable rows cols (startGame t)
  | tick (s : State) (r : Rand) (t : State) :
      Reachable rows cols s → s.gameInterval = true → gameLoop rows cols s r = some t →
      Reachable rows cols t
  | key (s : State) (k : Key) :
      Reachable rows cols s → Reachable rows cols (keydown s k)

/-- The draws in r let every sampling loop that this call of gameLoop runs stop: when the call
takes the food branch, the draws for the food contain a cell off the grown snake and off the
bonus item, and, when the bonus item is then spawned, its draws contain a cell off the grown
snake. -/
def drawsSuffice (rows cols : Nat) (s : State) (r : Rand) : Prop :=
  ∀ h, newHead rows cols s = some h → h ∉ s.snake → h = s.food →
    (∃ c ∈ r.foodDraws, c ∉ h :: s.snake ∧ s.superFood ≠ some c) ∧
    (s.superFood = none → r.roll < superFoodChance (s.streak + 1) →
      ∃ c ∈ r.superDraws, c ∉ h :: s.snake)

/-- The snake eats in the tick that starts in s: the call is not paused, the new head is off the
snake, and it lies on the food or on the bonus item. -/
def eats (rows cols : Nat) (s : State) : Prop :=
  s.paused = false ∧
  ∃ h, newHead rows cols s = some h ∧ h ∉ s.snake ∧ (h = s.food ∨ s.superFood = some h)

/-- The state right after the page has loaded when the first food lands on (6,5). -/
def startState : State :=
  { snake := [⟨5, 5⟩], dir := ⟨1, 0⟩, food := ⟨6, 5⟩, superFood := none, superFoodTimer := 0,
    score := 0, streak := 0, paused := false, gameSpeed := 150,
    gameInterval := true, gameOverModal := false }

/-- A tick whose food draw is (12,7) and whose roll 1/2 does not trigger the bonus item. -/
def plainRand : Rand :=
  { foodDraws := [⟨12, 7⟩], roll := 1 / 2, superDraws := [], spawnTime := 1000, now := 1000 }

/-- A tick whose food draw and bonus draw are both (12,7) and whose roll 0 triggers the bonus
item. -/
def bonusRand : Rand :=
  { foodDraws := [⟨12, 7⟩], roll := 0, superDraws := [⟨12, 7⟩], spawnTime := 1000, now := 1000 }

/-- The state reached from startState by the tick plainRand: the snake has eaten the food. -/
def fedState : State :=
  { snake := [⟨6, 5⟩, ⟨5, 5⟩], dir := ⟨1, 0⟩, food := ⟨12, 7⟩, superFood := none,
    superFoodTimer := 0, score := 1, streak := 1, paused := false, gameSpeed := 149,
    gameInterval := true, gameOverModal := false }

/-- The state reached from startState by the tick bonusRand: food and bonus item share a
cell. -/
def overlapState : State :=
  { snake := [⟨6, 5⟩, ⟨5, 5⟩], dir := ⟨1, 0⟩, food := ⟨12, 7⟩, superFood := some ⟨12, 7⟩,
    superFoodTimer := 1000, score := 1, streak := 1, paused := false, gameSpeed := 149,
    gameInterval := true, gameOverModal := false }

/-- A snake of three cells whose direction points from the head at its second segment. -/
def coiledState : State :=
  { snake := [⟨5, 5⟩, ⟨4, 5⟩, ⟨3, 5⟩], dir := ⟨-1, 0⟩, food := ⟨9, 9⟩, superFood := none,
    superFoodTimer := 0, score := 7, streak := 2, paused := false, gameSpeed := 148,
    gameInterval := true, gameOverModal := false }

/-- A snake of four cells coiled in a square whose direction points from the head at its tail
cell. -/
def loopState : State :=
  { snake := [⟨0, 0⟩, ⟨1, 0⟩, ⟨1, 1⟩, ⟨0, 1⟩], dir := ⟨0, 1⟩, food := ⟨9, 9⟩,
    superFood := some ⟨3, 3⟩, superFoodTimer := 500, score := 12, streak := 0, paused := false,
    gameSpeed := 299 / 2, gameInterval := true, gameOverModal := false }

/-- A state on the grid with rows = 1 and cols = 2: the snake holds (0,0), the food lies on the
only other cell (0,1) and the direction points at it, so the next bite fills the grid. -/
def fullState : State :=
  { snake := [⟨0, 0⟩], dir := ⟨0, 1⟩, food := ⟨0, 1⟩, superFood := none, superFoodTimer := 0,
    score := 0, streak := 0, paused := false, gameSpeed := 150,
    gameInterval := true, gameOverModal := false }

/-! ## The leaderboard in localStorage -/

/-- An entry of the stored leaderboard. -/
structure Entry where
  name : String
  score : Int
  date : String
deriving DecidableEq, Repr

/-- Insertion of a into a list that followed it in the array: a goes in front of the first b
with compareFn(a, b) at most zero. -/
def sortInsert {α : Type} (compareFn : α → α → Int) (a : α) : List α → List α
  | [] => [a]
  | b :: l => if compareFn a b ≤ 0 then a :: b :: l else b :: sortInsert compareFn a l

/-- The method Array.prototype.sort with a comparison function. The language fixes it to be a
stable sort: a comes before b when compareFn(a, b) is negative, and elements that compare
equal keep their order. Written here as insertion sort from the right end. -/
def arraySort {α : Type} (compareFn : α → α → Int) : List α → List α
  | [] => []
  | a :: l => sortInsert compareFn a (arraySort compareFn l)

/-- The function getLeaderboard: the parsed list, or the empty list when nothing is stored. -/
def getLeaderboard (stored : Option (List Entry)) : List Entry :=
  match stored with
  | none => []
  | some l => l

/-- The object newEntry built in saveScore; the date is the value of
`new Date().toLocaleDateString()`. -/
def newEntry (name : String) (score : Int) (date : String) : Entry :=
  { name := if name = "" then "Anonymous" else name, score := score, date := date }

/-- The function saveScore: the new content of the storage key and the returned flag. -/
def saveScore (stored : Option (List Entry)) (name : String) (score : Int) (date : String) :
    Option (List Entry) × Bool :=
  let leaderboard := getLeaderboard stored
  let leaderboard := leaderboard ++ [newEntry name score date]
  let leaderboard := arraySort (fun a b => b.score - a.score) leaderboard
  let leaderboard := leaderboard.take 5
  (some leaderboard, true)

/-- The wording of the specification: t is the stable sort of l by descending score, that is a
rearrangement of l in non-increasing score order in which the entries of each score appear in
their order in l. -/
def IsStableSortByScoreDesc (l t : List Entry) : Prop :=
  t.Perm l ∧ t.Pairwise (fun a b => b.score ≤ a.score) ∧
  ∀ k : Int, t.filter (fun a => decide (a.score = k)) = l.filter (fun a => decide (a.score = k))

/-- Five stored entries with the scores 100, 90, 80, 70, 60. -/
def fiveEntries : List Entry :=
  [⟨"Ann", 100, "1/1/2025"⟩, ⟨"Ben", 90, "1/2/2025"⟩, ⟨"Cy", 80, "1/3/2025"⟩,
   ⟨"Di", 70, "1/4/2025"⟩, ⟨"Ed", 60, "1/5/2025"⟩]

/-! ## Basic facts about the membership tests and the sampling loop -/

theorem onSnake_iff (snake : List Cell) (c : Cell) : onSnake snake c = true ↔ c ∈ snake := by
  unfold onSnake
  rw [List.any_eq_true]
  constructor
  · rintro ⟨d, hd, he⟩
    simp only [Bool.and_eq_true, beq_iff_eq] at he
    have hdc : d = c := by
      cases d; cases c; simp only [Cell.mk.injEq]; exact he
    exact hdc ▸ hd
  · intro h
    exact ⟨c, h, by simp⟩

theorem onSuperFood_iff (superFood : Option Cell) (c : Cell) :
    onSuperFood superFood c = true ↔ superFood = some c := by
  cases superFood with
  | none => simp [onSuperFood]
  | some sf =>
    cases sf; cases c
    simp [onSuperFood]

theorem onSuperFood_none (c : Cell) : onSuperFood none c = false := rfl

/-- A cell returned by the sampling loop is one of the draws and passed both tests. -/
theorem spawnFood_some (snake : List Cell) (superFood : Option Cell) (draws : List Cell)
    (f : Cell) (h : spawnFood snake superFood draws = some f) :
    f ∈ draws ∧ f ∉ snake ∧ superFood ≠ some f := by
  induction draws with
  | nil => simp [spawnFood] at h
  | cons c draws ih =>
    unfold spawnFood at h
    split at h
    · obtain ⟨h1, h2⟩ := ih h
      exact ⟨List.mem_cons_of_mem _ h1, h2⟩
    · rename_i hrej
      simp only [Bool.or_eq_true, not_or, Bool.not_eq_true] at hrej
      have hf : c = f := by simpa using h
      subst hf
      refine ⟨List.mem_cons_self _ _, ?_, ?_⟩
      · intro hm
        have := (onSnake_iff snake c).mpr hm
        rw [hrej.1] at this
        exact Bool.false_ne_true this
      · intro hm
        have := (onSuperFood_iff superFood c).mpr hm
        rw [hrej.2] at this
        exact Bool.false_ne_true this

/-- The sampling loop stops as soon as the draws contain a cell that passes both tests. -/
theorem spawnFood_returns (snake : List Cell) (superFood : Option Cell) (draws : List Cell)
    (h : ∃ c ∈ draws, c ∉ snake ∧ superFood ≠ some c) :
    ∃ f, spawnFood snake superFood draws = some f := by
  induction draws with
  | nil =>
    obtain ⟨c, hc, _⟩ := h
    simp at hc
  | cons d draws ih =>
    unfold spawnFood
    split
    · rename_i hrej
      apply ih
      obtain ⟨c, hc, hfree⟩ := h
      rcases List.mem_cons.mp hc with hcd | hcd
      · subst hcd
        exfalso
        simp only [Bool.or_eq_true] at hrej
        rcases hrej with hr | hr
        · exact hfree.1 ((onSnake_iff snake c).mp hr)
        · exact hfree.2 ((onSuperFood_iff superFood c).mp hr)
      · exact ⟨c, hcd, hfree⟩
    · exact ⟨d, rfl⟩

/-! ## What one call of gameLoop does, branch by branch -/

theorem sameCell_iff (a b : Cell) : (a.x == b.x && a.y == b.y) = true ↔ a = b := by
  cases a; cases b
  simp

@[simp] theorem finishTick_snake (s : State) (r : Rand) : (finishTick s r).snake = s.snake := by
  unfold finishTick updateGameSpeed; split <;> rfl

@[simp] theorem finishTick_dir (s : State) (r : Rand) : (finishTick s r).dir = s.dir := by
  unfold finishTick updateGameSpeed; split <;> rfl

@[simp] theorem finishTick_food (s : State) (r : Rand) : (finishTick s r).food = s.food := by
  unfold finishTick updateGameSpeed; split <;> rfl

@[simp] theorem finishTick_score (s : State) (r : Rand) : (finishTick s r).score = s.score := by
  unfold finishTick updateGameSpeed; split <;> rfl

@[simp] theorem finishTick_streak (s : State) (r : Rand) :
    (finishTick s r).streak = s.streak := by
  unfold finishTick updateGameSpeed; split <;> rfl

@[simp] theorem finishTick_paused (s : State) (r : Rand) :
    (finishTick s r).paused = s.paused := by
  unfold finishTick updateGameSpeed; split <;> rfl

@[simp] theorem finishTick_gameSpeed (s : State) (r : Rand) :
    (finishTick s r).gameSpeed = s.gameSpeed := by
  unfold finishTick updateGameSpeed; split <;> rfl

theorem finishTick_superFood (s : State) (r : Rand) :
    (finishTick s r).superFood = s.superFood ∨ (finishTick s r).superFood = none := by
  unfold finishTick updateGameSpeed
  split
  · right; rfl
  · left; rfl

theorem newHead_some_ne_nil {rows cols : Nat} {s : State} {h : Cell}
    (hh : newHead rows cols s = some h) : s.snake ≠ [] := by
  intro hnil
  simp [newHead, hnil] at hh

theorem newHead_of_ne_nil (rows cols : Nat) (s : State) (hne : s.snake ≠ []) :
    ∃ h, newHead rows cols s = some h := by
  unfold newHead
  cases hs : s.snake with
  | nil => exact absurd hs hne
  | cons a l => exact ⟨_, rfl⟩

/-- A paused call returns at once. -/
theorem gameLoop_paused (rows cols : Nat) (s : State) (r : Rand) (hp : s.paused = true) :
    gameLoop rows cols s r = some s := by
  simp [gameLoop, hp]

/-- The self-collision branch. -/
theorem gameLoop_collision (rows cols : Nat) (s : State) (r : Rand) (h : Cell)
    (hp : s.paused = false) (hh : newHead rows cols s = some h) (hon : h ∈ s.snake) :
    gameLoop rows cols s r = some (gameOver s) := by
  have := (onSnake_iff s.snake h).mpr hon
  simp [gameLoop, hp, hh, this]

/-- The bonus branch. -/
theorem gameLoop_superFood (rows cols : Nat) (s : State) (r : Rand) (h : Cell)
    (hp : s.paused = false) (hh : newHead rows cols s = some h) (hon : h ∉ s.snake)
    (hf : h ≠ s.food) (hs : s.superFood = some h) :
    gameLoop rows cols s r =
      some (finishTick
        { s with snake := h :: s.snake, score := s.score + (5 + s.streak / 3),
                 streak := s.streak + 1, superFood := none } r) := by
  have h1 : onSnake s.snake h = false := by
    rw [← Bool.not_eq_true, onSnake_iff]; exact hon
  have h2 : (h.x == s.food.x && h.y == s.food.y) = false := by
    rw [← Bool.not_eq_true, sameCell_iff]; exact hf
  have h3 : onSuperFood s.superFood h = true := (onSuperFood_iff _ _).mpr hs
  simp [gameLoop, hp, hh, h1, h2, h3]

/-- The plain move: the tail is dropped. -/
theorem gameLoop_move (rows cols : Nat) (s : State) (r : Rand) (h : Cell)
    (hp : s.paused = false) (hh : newHead rows cols s = some h) (hon : h ∉ s.snake)
    (hf : h ≠ s.food) (hs : s.superFood ≠ some h) :
    gameLoop rows cols s r =
      some (finishTick
        { s with snake := (h :: s.snake).dropLast, streak := 0,
                 gameSpeed := min 150 (s.gameSpeed + 1 / 2) } r) := by
  have h1 : onSnake s.snake h = false := by
    rw [← Bool.not_eq_true, onSnake_iff]; exact hon
  have h2 : (h.x == s.food.x && h.y == s.food.y) = false := by
    rw [← Bool.not_eq_true, sameCell_iff]; exact hf
  have h3 : onSuperFood s.superFood h = false := by
    rw [← Bool.not_eq_true, onSuperFood_iff]; exact hs
  simp [gameLoop, hp, hh, h1, h2, h3]

/-- The food branch, when the call returns. -/
theorem gameLoop_food (rows cols : Nat) (s : State) (r : Rand) (h : Cell) (t : State)
    (hp : s.paused = false) (hh : newHead rows cols s = some h) (hon : h ∉ s.snake)
    (hf : h = s.food) (ht : gameLoop rows cols s r = some t) :
    t.snake = h :: s.snake ∧ t.score = s.score + (1 + s.streak / 5) ∧
    t.streak = s.streak + 1 ∧ t.gameSpeed = max 100 (s.gameSpeed - 1) ∧
    t.dir = s.dir ∧ t.paused = false ∧
    spawnFood (h :: s.snake) s.superFood r.foodDraws = some t.food ∧
    (t.superFood = none ∨ t.superFood = s.superFood ∨
      (s.superFood = none ∧ r.roll < superFoodChance (s.streak + 1) ∧
        spawnFood (h :: s.snake) none r.superDraws = t.superFood)) := by
  have h1 : onSnake s.snake h = false := by
    rw [← Bool.not_eq_true, onSnake_iff]; exact hon
  have h2 : (h.x == s.food.x && h.y == s.food.y) = true := (sameCell_iff _ _).mpr hf
  unfold gameLoop at ht
  rw [if_neg (by rw [hp]; exact Bool.false_ne_true)] at ht
  simp only [hh, h1, h2, Bool.false_eq_true, if_false, if_true] at ht
  cases hfd : spawnFood (h :: s.snake) s.superFood r.foodDraws with
  | none => simp [hfd] at ht
  | some f =>
    simp only [hfd] at ht
    split at ht
    · rename_i hc
      simp only [Bool.and_eq_true, Option.isNone_iff_eq_none, decide_eq_true_eq] at hc
      cases hsd : spawnFood (h :: s.snake) s.superFood r.superDraws with
      | none => simp [hsd] at ht
      | some sf =>
        simp only [hsd, Option.some.injEq] at ht
        subst ht
        refine ⟨by simp, by simp, by simp, by simp, by simp, by simp [hp], by simp, ?_⟩
        rcases finishTick_superFood
          { s with snake := h :: s.snake, score := s.score + (1 + s.streak / 5),
                   streak := s.streak + 1, food := f,
                   gameSpeed := max 100 (s.gameSpeed - 1), superFood := some sf,
                   superFoodTimer := r.spawnTime } r with h4 | h4
        · right; right
          refine ⟨hc.1, hc.2, ?_⟩
          rw [h4, ← hsd, hc.1]
        · left; exact h4
    · simp only [Option.some.injEq] at ht
      subst ht
      refine ⟨by simp, by simp, by simp, by simp, by simp, by simp [hp], by simp, ?_⟩
      rcases finishTick_superFood
        { s with snake := h :: s.snake, score := s.score + (1 + s.streak / 5),
                 streak := s.streak + 1, food := f,
                 gameSpeed := max 100 (s.gameSpeed - 1) } r with h4 | h4
      · right; left; exact h4
      · left; exact h4

/-- The food branch returns when each sampling loop it runs is given a draw that passes. -/
theorem gameLoop_food_returns (rows cols : Nat) (s : State) (r : Rand) (h : Cell)
    (hp : s.paused = false) (hh : newHead rows cols s = some h) (hon : h ∉ s.snake)
    (hf : h = s.food)
    (hfood : ∃ c ∈ r.foodDraws, c ∉ h :: s.snake ∧ s.superFood ≠ some c)
    (hsuper : s.superFood = none → r.roll < superFoodChance (s.streak + 1) →
      ∃ c ∈ r.superDraws, c ∉ h :: s.snake) :
    ∃ t, gameLoop rows cols s r = some t := by
  have h1 : onSnake s.snake h = false := by
    rw [← Bool.not_eq_true, onSnake_iff]; exact hon
  have h2 : (h.x == s.food.x && h.y == s.food.y) = true := (sameCell_iff _ _).mpr hf
  obtain ⟨f, hfd⟩ := spawnFood_returns (h :: s.snake) s.superFood r.foodDraws hfood
  simp only [gameLoop, hp, hh, h1, h2, Bool.false_eq_true, if_false, if_true, hfd]
  split
  · rename_i hc
    simp only [Bool.and_eq_true, Option.isNone_iff_eq_none, decide_eq_true_eq] at hc
    obtain ⟨c, hc1, hc2⟩ := hsuper hc.1 hc.2
    obtain ⟨sf, hsd⟩ := spawnFood_returns (h :: s.snake) s.superFood r.superDraws
      ⟨c, hc1, hc2, by rw [hc.1]; simp⟩
    simp only [hsd]
    exact ⟨_, rfl⟩
  · exact ⟨_, rfl⟩

theorem gameLoop_returns (rows cols : Nat) (s : State) (r : Rand)
    (hne : s.snake ≠ []) (hd : drawsSuffice rows cols s r) :
    ∃ t, gameLoop rows cols s r = some t := by
  cases hp : s.paused with
  | true => exact ⟨s, gameLoop_paused rows cols s r hp⟩
  | false =>
    obtain ⟨h, hh⟩ := newHead_of_ne_nil rows cols s hne
    by_cases hon : h ∈ s.snake
    · exact ⟨_, gameLoop_collision rows cols s r h hp hh hon⟩
    · by_cases hf : h = s.food
      · obtain ⟨h1, h2⟩ := hd h hh hon hf
        exact gameLoop_food_returns rows cols s r h hp hh hon hf h1 h2
      · by_cases hs : s.superFood = some h
        · exact ⟨_, gameLoop_superFood rows cols s r h hp hh hon hf hs⟩
        · exact ⟨_, gameLoop_move rows cols s r h hp hh hon hf hs⟩

/-- On a cell whose coordinates do not fall below minus the grid size, the wrapped head of the
code is the sum of head and direction reduced modulo the grid dimensions. -/
theorem newHead_eq_emod (rows cols : Nat) (s : State) (s0 : Cell) (tl : List Cell)
    (hs : s.snake = s0 :: tl)
    (hx : 0 ≤ s0.x + s.dir.x + rows) (hy : 0 ≤ s0.y + s.dir.y + cols) :
    newHead rows cols s = some ⟨(s0.x + s.dir.x) % rows, (s0.y + s.dir.y) % cols⟩ := by
  unfold newHead
  rw [hs]
  simp only [Option.some.injEq, Cell.mk.injEq]
  constructor
  · rw [Int.tmod_eq_emod hx (Int.ofNat_nonneg rows), Int.add_emod_self]
  · rw [Int.tmod_eq_emod hy (Int.ofNat_nonneg cols), Int.add_emod_self]

/-- The sampling loop does not stop on draws that are all on the snake or on the bonus item, as
are all draws once the snake fills the grid. -/
theorem spawnFood_none (snake : List Cell) (superFood : Option Cell) (draws : List Cell)
    (h : ∀ c ∈ draws, c ∈ snake ∨ superFood = some c) :
    spawnFood snake superFood draws = none := by
  cases hs : spawnFood snake superFood draws with
  | none => rfl
  | some f =>
    obtain ⟨h1, h2, h3⟩ := spawnFood_some snake superFood draws f hs
    rcases h f h1 with h4 | h4
    · exact absurd h4 h2
    · exact absurd h4 h3

/-- A single key never turns a unit direction into its exact opposite. -/
theorem keydown_not_opposite (s : State) (k : Key)
    (hd : s.dir = ⟨1, 0⟩ ∨ s.dir = ⟨-1, 0⟩ ∨ s.dir = ⟨0, 1⟩ ∨ s.dir = ⟨0, -1⟩) :
    (keydown s k).dir ≠ ⟨-s.dir.x, -s.dir.y⟩ := by
  unfold keydown
  rcases hd with hd | hd | hd | hd <;> cases k <;> cases hp : s.paused <;>
    simp [hd, hp]

/-- The branch taken by a call of gameLoop that returns. -/
theorem gameLoop_branch (rows cols : Nat) (s : State) (r : Rand) (t : State)
    (ht : gameLoop rows cols s r = some t) :
    (s.paused = true ∧ t = s) ∨
    (s.paused = false ∧ ∃ h, newHead rows cols s = some h ∧
      ((h ∈ s.snake ∧ t = gameOver s) ∨
       (h ∉ s.snake ∧ h = s.food) ∨
       (h ∉ s.snake ∧ h ≠ s.food ∧ s.superFood = some h ∧
          t = finishTick
            { s with snake := h :: s.snake, score := s.score + (5 + s.streak / 3),
                     streak := s.streak + 1, superFood := none } r) ∨
       (h ∉ s.snake ∧ h ≠ s.food ∧ s.superFood ≠ some h ∧
          t = finishTick
            { s with snake := (h :: s.snake).dropLast, streak := 0,
                     gameSpeed := min 150 (s.gameSpeed + 1 / 2) } r))) := by
  rcases Bool.eq_false_or_eq_true s.paused with hp | hp
  · left
    rw [gameLoop_paused rows cols s r hp] at ht
    exact ⟨hp, (Option.some.inj ht).symm⟩
  · right
    refine ⟨hp, ?_⟩
    cases hh : newHead rows cols s with
    | none =>
      unfold gameLoop at ht
      rw [if_neg (by rw [hp]; exact Bool.false_ne_true)] at ht
      simp [hh] at ht
    | some h =>
      refine ⟨h, rfl, ?_⟩
      by_cases hon : h ∈ s.snake
      · rw [gameLoop_collision rows cols s r h hp hh hon] at ht
        exact Or.inl ⟨hon, (Option.some.inj ht).symm⟩
      · by_cases hf : h = s.food
        · exact Or.inr (Or.inl ⟨hon, hf⟩)
        · by_cases hs : s.superFood = some h
          · rw [gameLoop_superFood rows cols s r h hp hh hon hf hs] at ht
            exact Or.inr (Or.inr (Or.inl ⟨hon, hf, hs, (Option.some.inj ht).symm⟩))
          · rw [gameLoop_move rows cols s r h hp hh hon hf hs] at ht
            exact Or.inr (Or.inr (Or.inr ⟨hon, hf, hs, (Option.some.inj ht).symm⟩))

/-! ## Steps that preserve the invariants -/

theorem initGame_fields (s : State) (draws : List Cell) (t : State)
    (h : initGame s draws = some t) :
    t.snake = [⟨5, 5⟩] ∧ t.gameSpeed = 150 ∧ t.superFood = none ∧ t.food ∉ t.snake := by
  unfold initGame at h
  cases hf : spawnFood [⟨5, 5⟩] s.superFood draws with
  | none => simp [hf] at h
  | some f =>
    simp only [hf, Option.some.injEq] at h
    subst h
    exact ⟨rfl, rfl, rfl, (spawnFood_some _ _ _ _ hf).2.1⟩

theorem keydown_fields (s : State) (k : Key) :
    (keydown s k).snake = s.snake ∧ (keydown s k).food = s.food ∧
    (keydown s k).gameSpeed = s.gameSpeed ∧ (keydown s k).superFood = s.superFood ∧
    (keydown s k).score = s.score ∧ (keydown s k).streak = s.streak := by
  unfold keydown
  split_ifs <;> exact ⟨rfl, rfl, rfl, rfl, rfl, rfl⟩

theorem dropLast_cons_nodup (h : Cell) (l : List Cell) (hne : l ≠ [])
    (hn : (h :: l).Nodup) : (h :: l).dropLast ≠ [] ∧ ((h :: l).dropLast).Nodup := by
  constructor
  · cases l with
    | nil => exact absurd rfl hne
    | cons a l => simp [List.dropLast]
  · exact hn.sublist (List.dropLast_sublist _)

/-- One call of gameLoop keeps the snake non-empty and free of duplicates. -/
theorem gameLoop_keeps_snake (rows cols : Nat) (s : State) (r : Rand) (t : State)
    (ht : gameLoop rows cols s r = some t) (hne : s.snake ≠ []) (hn : s.snake.Nodup) :
    t.snake ≠ [] ∧ t.snake.Nodup := by
  rcases gameLoop_branch rows cols s r t ht with ⟨_, h1⟩ | ⟨hp, h, hh, hb⟩
  · rw [h1]; exact ⟨hne, hn⟩
  · rcases hb with ⟨_, h1⟩ | ⟨hon, hf⟩ | ⟨hon, _, _, h1⟩ | ⟨hon, _, _, h1⟩
    · rw [h1]; exact ⟨hne, hn⟩
    · have h2 := (gameLoop_food rows cols s r h t hp hh hon hf ht).1
      rw [h2]
      exact ⟨List.cons_ne_nil _ _, List.nodup_cons.mpr ⟨hon, hn⟩⟩
    · rw [h1, finishTick_snake]
      exact ⟨List.cons_ne_nil _ _, List.nodup_cons.mpr ⟨hon, hn⟩⟩
    · rw [h1, finishTick_snake]
      exact dropLast_cons_nodup h s.snake hne (List.nodup_cons.mpr ⟨hon, hn⟩)

/-- One call of gameLoop keeps gameSpeed between 100 and 150. -/
theorem gameLoop_keeps_speed (rows cols : Nat) (s : State) (r : Rand) (t : State)
    (ht : gameLoop rows cols s r = some t) (h : 100 ≤ s.gameSpeed ∧ s.gameSpeed ≤ 150) :
    100 ≤ t.gameSpeed ∧ t.gameSpeed ≤ 150 := by
  rcases gameLoop_branch rows cols s r t ht with ⟨_, h1⟩ | ⟨hp, c, hh, hb⟩
  · rw [h1]; exact h
  · rcases hb with ⟨_, h1⟩ | ⟨hon, hf⟩ | ⟨_, _, _, h1⟩ | ⟨_, _, _, h1⟩
    · rw [h1]; exact h
    · have h2 := (gameLoop_food rows cols s r c t hp hh hon hf ht).2.2.2.1
      rw [h2]
      refine ⟨le_max_left _ _, max_le (by norm_num) ?_⟩
      linarith [h.2]
    · rw [h1, finishTick_gameSpeed]; exact h
    · rw [h1, finishTick_gameSpeed]
      refine ⟨le_min (by norm_num) ?_, min_le_left _ _⟩
      show (100 : ℚ) ≤ s.gameSpeed + 1 / 2
      linarith [h.1]

/-- One call of gameLoop keeps the food off the snake. -/
theorem gameLoop_keeps_food (rows cols : Nat) (s : State) (r : Rand) (t : State)
    (ht : gameLoop rows cols s r = some t) (h : s.food ∉ s.snake) :
    t.food ∉ t.snake := by
  rcases gameLoop_branch rows cols s r t ht with ⟨_, h1⟩ | ⟨hp, c, hh, hb⟩
  · rw [h1]; exact h
  · rcases hb with ⟨_, h1⟩ | ⟨hon, hf⟩ | ⟨_, hf, _, h1⟩ | ⟨_, hf, _, h1⟩
    · rw [h1]; exact h
    · obtain ⟨h2, _, _, _, _, _, h3, _⟩ := gameLoop_food rows cols s r c t hp hh hon hf ht
      rw [h2]
      exact (spawnFood_some _ _ _ _ h3).2.1
    · rw [h1, finishTick_snake, finishTick_food]
      intro hm
      rcases List.mem_cons.mp hm with hm | hm
      · exact hf hm.symm
      · exact h hm
    · rw [h1, finishTick_snake, finishTick_food]
      intro hm
      have hm2 : s.food ∈ c :: s.snake := (List.dropLast_sublist _).subset hm
      rcases List.mem_cons.mp hm2 with hm2 | hm2
      · exact hf hm2.symm
      · exact h hm2

theorem startState_reachable : Reachable 20 20 startState :=
  Reachable.load [⟨6, 5⟩] _ (by decide) (by decide) rfl

/-! ## The sort of the leaderboard -/

theorem sortInsert_perm {α : Type} (f : α → α → Int) (a : α) (l : List α) :
    (sortInsert f a l).Perm (a :: l) := by
  induction l with
  | nil => exact List.Perm.refl _
  | cons b l ih =>
    unfold sortInsert
    split
    · exact List.Perm.refl _
    · exact (List.Perm.cons b ih).trans (List.Perm.swap a b l)

theorem arraySort_perm {α : Type} (f : α → α → Int) (l : List α) : (arraySort f l).Perm l := by
  induction l with
  | nil => exact List.Perm.refl _
  | cons a l ih =>
    unfold arraySort
    exact (sortInsert_perm f a _).trans (List.Perm.cons a ih)

theorem sortInsert_sorted (a : Entry) (l : List Entry)
    (hl : l.Pairwise (fun a b => b.score ≤ a.score)) :
    (sortInsert (fun a b => b.score - a.score) a l).Pairwise (fun a b => b.score ≤ a.score) := by
  induction l with
  | nil => simp [sortInsert]
  | cons b l ih =>
    unfold sortInsert
    have hb := List.pairwise_cons.mp hl
    split
    · rename_i hle
      refine List.pairwise_cons.mpr ⟨?_, hl⟩
      intro c hc
      rcases List.mem_cons.mp hc with hc | hc
      · subst hc; omega
      · have := hb.1 c hc
        omega
    · rename_i hgt
      refine List.pairwise_cons.mpr ⟨?_, ih hb.2⟩
      intro c hc
      rcases List.mem_cons.mp ((sortInsert_perm _ a l).subset hc) with hc | hc
      · subst hc; omega
      · exact hb.1 c hc

theorem arraySort_sorted (l : List Entry) :
    (arraySort (fun a b => b.score - a.score) l).Pairwise (fun a b => b.score ≤ a.score) := by
  induction l with
  | nil => exact List.Pairwise.nil
  | cons a l ih =>
    unfold arraySort
    exact sortInsert_sorted a _ ih

theorem sortInsert_filter (a : Entry) (l : List Entry) (k : Int) :
    (sortInsert (fun a b => b.score - a.score) a l).filter (fun e => decide (e.score = k)) =
      (a :: l).filter (fun e => decide (e.score = k)) := by
  induction l with
  | nil => rfl
  | cons b l ih =>
    unfold sortInsert
    split
    · rfl
    · rename_i hgt
      have hne : a.score ≠ b.score := by omega
      rw [List.filter_cons, ih]
      by_cases ha : a.score = k
      · have hb : ¬ b.score = k := fun hb => hne (ha.trans hb.symm)
        simp [List.filter_cons, ha, hb]
      · simp [List.filter_cons, ha]

theorem arraySort_filter (l : List Entry) (k : Int) :
    (arraySort (fun a b => b.score - a.score) l).filter (fun e => decide (e.score = k)) =
      l.filter (fun e => decide (e.score = k)) := by
  induction l with
  | nil => rfl
  | cons a l ih =>
    unfold arraySort
    rw [sortInsert_filter, List.filter_cons, List.filter_cons, ih]

/-- The sort used by saveScore produces the stable sort by descending score. -/
theorem arraySort_isStableSort (l : List Entry) :
    IsStableSortByScoreDesc l (arraySort (fun a b => b.score - a.score) l) :=
  ⟨arraySort_perm _ l, arraySort_sorted l, arraySort_filter l⟩

/-- A list has one stable sort by descending score only. -/
theorem stableSort_unique (t₁ t₂ : List Entry)
    (h₁ : t₁.Pairwise (fun a b => b.score ≤ a.score))
    (h₂ : t₂.Pairwise (fun a b => b.score ≤ a.score))
    (hf : ∀ k : Int, t₁.filter (fun a => decide (a.score = k)) =
      t₂.filter (fun a => decide (a.score = k))) : t₁ = t₂ := by
  induction t₁ generalizing t₂ with
  | nil =>
    cases t₂ with
    | nil => rfl
    | cons b t₂ =>
      have := hf b.score
      simp [List.filter_cons] at this
  | cons a t₁ ih =>
    cases t₂ with
    | nil =>
      have := hf a.score
      simp [List.filter_cons] at this
    | cons b t₂ =>
      have ha := List.pairwise_cons.mp h₁
      have hb := List.pairwise_cons.mp h₂
      have hab : a.score ≤ b.score := by
        have hmem : a ∈ (b :: t₂).filter (fun e => decide (e.score = a.score)) := by
          rw [← hf a.score]; simp [List.filter_cons]
        rcases List.mem_cons.mp (List.mem_filter.mp hmem).1 with h | h
        · rw [h]
        · exact hb.1 a h
      have hba : b.score ≤ a.score := by
        have hmem : b ∈ (a :: t₁).filter (fun e => decide (e.score = b.score)) := by
          rw [hf b.score]; simp [List.filter_cons]
        rcases List.mem_cons.mp (List.mem_filter.mp hmem).1 with h | h
        · rw [h]
        · exact ha.1 b h
      have hsc : b.score = a.score := le_antisymm hba hab
      have hhead := hf a.score
      simp only [List.filter_cons, hsc, decide_True, if_true, List.cons.injEq] at hhead
      have hEq : a = b := hhead.1
      subst hEq
      congr 1
      apply ih t₂ ha.2 hb.2
      intro k
      have := hf k
      by_cases hk : a.score = k
      · simpa [List.filter_cons, hk] using this
      · simpa [List.filter_cons, hk] using this

/-! ## Two concrete ticks -/

theorem gameLoop_startState_plain : gameLoop 20 20 startState plainRand = some fedState := by
  have hx : Int.tmod 26 20 = 6 := by decide
  have hy : Int.tmod 25 20 = 5 := by decide
  simp [gameLoop, newHead, startState, plainRand, fedState, onSnake, onSuperFood, spawnFood,
    superFoodChance, finishTick, updateGameSpeed, hx, hy]
  norm_num

theorem gameLoop_startState_bonus :
    gameLoop 20 20 startState bonusRand = some overlapState := by
  have hx : Int.tmod 26 20 = 6 := by decide
  have hy : Int.tmod 25 20 = 5 := by decide
  simp [gameLoop, newHead, startState, bonusRand, overlapState, onSnake, onSuperFood, spawnFood,
    superFoodChance, finishTick, updateGameSpeed, hx, hy]
  norm_num

/-- One call of gameLoop keeps gameSpeed a multiple of one half. -/
theorem gameLoop_keeps_half (rows cols : Nat) (s : State) (r : Rand) (t : State)
    (ht : gameLoop rows cols s r = some t) (h : ∃ n : Int, s.gameSpeed = (n : ℚ) / 2) :
    ∃ n : Int, t.gameSpeed = (n : ℚ) / 2 := by
  obtain ⟨n, hn⟩ := h
  rcases gameLoop_branch rows cols s r t ht with ⟨_, h1⟩ | ⟨hp, c, hh, hb⟩
  · rw [h1]; exact ⟨n, hn⟩
  · rcases hb with ⟨_, h1⟩ | ⟨hon, hf⟩ | ⟨_, _, _, h1⟩ | ⟨_, _, _, h1⟩
    · rw [h1]; exact ⟨n, hn⟩
    · have h2 := (gameLoop_food rows cols s r c t hp hh hon hf ht).2.2.2.1
      rw [h2]
      rcases max_choice (100 : ℚ) (s.gameSpeed - 1) with h3 | h3
      · rw [h3]; exact ⟨200, by norm_num⟩
      · rw [h3, hn]; exact ⟨n - 2, by push_cast; ring⟩
    · rw [h1, finishTick_gameSpeed]; exact ⟨n, hn⟩
    · rw [h1, finishTick_gameSpeed]
      show ∃ m : Int, min (150 : ℚ) (s.gameSpeed + 1 / 2) = (m : ℚ) / 2
      rcases min_choice (150 : ℚ) (s.gameSpeed + 1 / 2) with h3 | h3
      · rw [h3]; exact ⟨300, by norm_num⟩
      · rw [h3, hn]; exact ⟨n + 1, by push_cast; ring⟩

/-! ## The claims -/

/-- C1, as amended: in an unpaused state on a grid with positive dimensions, let h be the cell
that gameLoop computes from head plus direction wrapped by the grid dimensions, and let h be the
food cell and off the snake. Then every state that a call of gameLoop returns has h at index 0
followed by the old cells in order (length plus one), the score raised by
1 + floor(streak / 5) for the streak before the tick, the streak raised by exactly 1, and
gameSpeed equal to max(100, gameSpeed - 1); and the call does return as soon as each sampling
loop of spawnFood that it runs is given a draw that passes. The cell h is head plus direction
modulo the grid dimensions, a cell of the grid, whenever that sum is not below minus the grid
size, as for every head on the grid and every unit direction. -/
theorem gameLoop_eats_food (rows cols : Nat) (s : State) (r : Rand) (h : Cell)
    (hrows : 0 < rows) (hcols : 0 < cols) (hp : s.paused = false)
    (hh : newHead rows cols s = some h) (hf : h = s.food) (hon : h ∉ s.snake) :
    (drawsSuffice rows cols s r → ∃ t, gameLoop rows cols s r = some t) ∧
    (∀ t, gameLoop rows cols s r = some t →
      t.snake = h :: s.snake ∧ t.snake.length = s.snake.length + 1 ∧
      t.score = s.score + (1 + s.streak / 5) ∧ t.streak = s.streak + 1 ∧
      t.gameSpeed = max 100 (s.gameSpeed - 1)) ∧
    (∀ s0 tl, s.snake = s0 :: tl →
      0 ≤ s0.x + s.dir.x + rows → 0 ≤ s0.y + s.dir.y + cols →
      h = ⟨(s0.x + s.dir.x) % rows, (s0.y + s.dir.y) % cols⟩ ∧
      0 ≤ h.x ∧ h.x < rows ∧ 0 ≤ h.y ∧ h.y < cols) := by
  refine ⟨?_, ?_, ?_⟩
  · intro hd
    exact gameLoop_returns rows cols s r (newHead_some_ne_nil hh) hd
  · intro t ht
    obtain ⟨h1, h2, h3, h4, _⟩ := gameLoop_food rows cols s r h t hp hh hon hf ht
    refine ⟨h1, ?_, h2, h3, h4⟩
    rw [h1, List.length_cons]
  · intro s0 tl hs hx hy
    have := newHead_eq_emod rows cols s s0 tl hs hx hy
    rw [hh] at this
    have hr : (0 : Int) < rows := Int.ofNat_lt.mpr hrows
    have hc : (0 : Int) < cols := Int.ofNat_lt.mpr hcols
    rw [Option.some.inj this]
    exact ⟨rfl, Int.emod_nonneg _ (ne_of_gt hr), Int.emod_lt_of_pos _ hr,
      Int.emod_nonneg _ (ne_of_gt hc), Int.emod_lt_of_pos _ hc⟩

/-- Witness of C1: the 20 by 20 grid, snake [(5,5)], direction (1,0), food (6,5), score 0,
streak 0, interval 150; the tick returns head (6,5), score 1, streak 1, length 2, interval
149. -/
theorem gameLoop_eats_food_witness :
    ∃ t, gameLoop 20 20 startState plainRand = some t ∧
      t.snake = [⟨6, 5⟩, ⟨5, 5⟩] ∧ t.snake.length = 2 ∧ t.score = 1 ∧ t.streak = 1 ∧
      t.gameSpeed = 149 := by
  have H := gameLoop_eats_food 20 20 startState plainRand ⟨6, 5⟩ (by decide) (by decide)
    rfl (by decide) rfl (by decide)
  have hd : drawsSuffice 20 20 startState plainRand := by
    intro h _ _ hf
    subst hf
    exact ⟨⟨⟨12, 7⟩, by simp [plainRand], by decide, by simp [startState]⟩,
      fun _ hroll => absurd hroll (by simp [plainRand, superFoodChance, startState]; norm_num)⟩
  obtain ⟨t, ht⟩ := H.1 hd
  obtain ⟨h1, h2, h3, h4, h5⟩ := H.2.1 t ht
  refine ⟨t, ht, h1, h2, ?_, ?_, ?_⟩
  · rw [h3]; decide
  · rw [h4]; decide
  · rw [h5]; simp [startState]; norm_num

/-- C1 as first stated fails where the bite fills the grid: on the grid with rows = 1 and
cols = 2, the state with snake [(0,0)], direction (0,1) and food (0,1) is unpaused, its wrapped
head-plus-direction cell is the food cell and is off the snake, and yet for no draws inside the
grid does the call of gameLoop return: every candidate of spawnFood lies on the grown snake, so
the loop never stops and gameSpeed is never assigned. -/
theorem gameLoop_eats_food_never_returns_on_full_grid :
    (0 < 1 ∧ 0 < 2) ∧ fullState.paused = false ∧
    newHead 1 2 fullState = some fullState.food ∧ fullState.food ∉ fullState.snake ∧
    ¬ ∃ r : Rand, (∀ c ∈ r.foodDraws, 0 ≤ c.x ∧ c.x < 1 ∧ 0 ≤ c.y ∧ c.y < 2) ∧
      ∃ t, gameLoop 1 2 fullState r = some t := by
  refine ⟨⟨by decide, by decide⟩, rfl, by decide, by decide, ?_⟩
  rintro ⟨r, hgrid, t, ht⟩
  have h3 := (gameLoop_food 1 2 fullState r ⟨0, 1⟩ t rfl (by decide) (by decide) rfl ht).2.2.2.2.2.2.1
  have h4 : spawnFood (⟨0, 1⟩ :: fullState.snake) fullState.superFood r.foodDraws = none := by
    apply spawnFood_none
    intro c hc
    obtain ⟨hx0, hx1, hy0, hy1⟩ := hgrid c hc
    left
    have hx : c.x = 0 := by omega
    have hy : c.y = 0 ∨ c.y = 1 := by omega
    cases c with
    | mk x y =>
      simp only at hx hy
      subst hx
      rcases hy with hy | hy <;> subst hy <;> simp [fullState]
  rw [h4] at h3
  exact Option.noConfusion h3

/-- C6: in an unpaused state whose wrapped head-plus-direction cell h coincides with any cell of
the snake (the tail cell included), gameLoop returns with game over reported (the dialog is
shown and the timer is cleared) and with score, snake, streak, food, bonus item and gameSpeed
unchanged. -/
theorem gameLoop_self_collision (rows cols : Nat) (s : State) (r : Rand) (h : Cell)
    (hp : s.paused = false) (hh : newHead rows cols s = some h) (hon : h ∈ s.snake) :
    ∃ t, gameLoop rows cols s r = some t ∧
      t.gameOverModal = true ∧ t.gameInterval = false ∧
      t.score = s.score ∧ t.snake = s.snake ∧ t.streak = s.streak ∧ t.food = s.food ∧
      t.superFood = s.superFood ∧ t.gameSpeed = s.gameSpeed :=
  ⟨gameOver s, gameLoop_collision rows cols s r h hp hh hon,
    rfl, rfl, rfl, rfl, rfl, rfl, rfl, rfl⟩

/-- Witness of C6: a snake of length 3 whose head lands on its own second segment, and a snake
of length 4 whose head lands on its current tail cell. -/
theorem gameLoop_self_collision_witness :
    (newHead 20 20 coiledState = some ⟨4, 5⟩ ∧ coiledState.snake.get? 1 = some ⟨4, 5⟩ ∧
      ∃ t, gameLoop 20 20 coiledState plainRand = some t ∧
        t.gameOverModal = true ∧ t.gameInterval = false ∧
        t.score = 7 ∧ t.snake = [⟨5, 5⟩, ⟨4, 5⟩, ⟨3, 5⟩] ∧ t.streak = 2 ∧ t.food = ⟨9, 9⟩ ∧
        t.superFood = none ∧ t.gameSpeed = 148) ∧
    (newHead 20 20 loopState = some ⟨0, 1⟩ ∧ loopState.snake.getLast? = some ⟨0, 1⟩ ∧
      ∃ t, gameLoop 20 20 loopState plainRand = some t ∧
        t.gameOverModal = true ∧ t.gameInterval = false ∧
        t.score = 12 ∧ t.snake = [⟨0, 0⟩, ⟨1, 0⟩, ⟨1, 1⟩, ⟨0, 1⟩] ∧ t.streak = 0 ∧
        t.food = ⟨9, 9⟩ ∧ t.superFood = some ⟨3, 3⟩ ∧ t.gameSpeed = 299 / 2) :=
  ⟨⟨by decide, by decide,
      gameLoop_self_collision 20 20 coiledState plainRand ⟨4, 5⟩ rfl (by decide) (by decide)⟩,
    ⟨by decide, by decide,
      gameLoop_self_collision 20 20 loopState plainRand ⟨0, 1⟩ rfl (by decide) (by decide)⟩⟩

/-- C7: for every state and every call of gameLoop, the call returns when the snake is non-empty
and its sampling loops are given a draw that passes, and whenever it returns: if the snake eats
the food or the bonus item in that tick the snake is longer by exactly 1, and if it does not
eat the length of the snake is unchanged. -/
theorem gameLoop_length (rows cols : Nat) (s : State) (r : Rand) :
    (s.snake ≠ [] → drawsSuffice rows cols s r → ∃ t, gameLoop rows cols s r = some t) ∧
    ∀ t, gameLoop rows cols s r = some t →
      (eats rows cols s → t.snake.length = s.snake.length + 1) ∧
      (¬ eats rows cols s → t.snake.length = s.snake.length) := by
  refine ⟨gameLoop_returns rows cols s r, ?_⟩
  intro t ht
  rcases gameLoop_branch rows cols s r t ht with ⟨hp, h1⟩ | ⟨hp, h, hh, hb⟩
  · refine ⟨fun he => ?_, fun _ => by rw [h1]⟩
    rw [he.1] at hp
    exact absurd hp Bool.false_ne_true
  · rcases hb with ⟨hon, h1⟩ | ⟨hon, hf⟩ | ⟨hon, hf, hs, h1⟩ | ⟨hon, hf, hs, h1⟩
    · refine ⟨fun he => ?_, fun _ => by rw [h1]; rfl⟩
      obtain ⟨_, h', hh', hon', _⟩ := he
      rw [hh] at hh'
      rw [Option.some.inj hh'] at hon
      exact absurd hon hon'
    · have h1 := (gameLoop_food rows cols s r h t hp hh hon hf ht).1
      refine ⟨fun _ => by rw [h1, List.length_cons], fun hn => ?_⟩
      exact absurd ⟨hp, h, hh, hon, Or.inl hf⟩ hn
    · refine ⟨fun _ => by rw [h1, finishTick_snake, List.length_cons], fun hn => ?_⟩
      exact absurd ⟨hp, h, hh, hon, Or.inr hs⟩ hn
    · refine ⟨fun he => ?_, fun _ => by
        rw [h1, finishTick_snake, List.length_dropLast, List.length_cons]; rfl⟩
      obtain ⟨_, h', hh', _, hor⟩ := he
      rw [hh] at hh'
      rw [← Option.some.inj hh'] at hor
      rcases hor with hor | hor
      · exact absurd hor hf
      · exact absurd hor hs

/-- Witness of C7: the first tick eats and the snake grows from 1 to 2 cells; the tick after it
does not eat and the snake keeps its 2 cells. -/
theorem gameLoop_length_witness :
    (∃ t, gameLoop 20 20 startState plainRand = some t ∧ t.snake.length = 1 + 1) ∧
    (∃ t, gameLoop 20 20 fedState plainRand = some t ∧ t.snake.length = 2) := by
  constructor
  · refine ⟨fedState, gameLoop_startState_plain, ?_⟩
    exact ((gameLoop_length 20 20 startState plainRand).2 fedState
      gameLoop_startState_plain).1 ⟨rfl, ⟨6, 5⟩, by decide, by decide, Or.inl rfl⟩
  · have hd : drawsSuffice 20 20 fedState plainRand := by
      intro h hh _ hf
      have h1 : newHead 20 20 fedState = some ⟨7, 5⟩ := by decide
      rw [h1] at hh
      rw [← Option.some.inj hh] at hf
      exact absurd hf (by decide)
    obtain ⟨t, ht⟩ := (gameLoop_length 20 20 fedState plainRand).1 (by decide) hd
    refine ⟨t, ht, ?_⟩
    refine ((gameLoop_length 20 20 fedState plainRand).2 t ht).2 ?_
    rintro ⟨_, h, hh, _, hor⟩
    have h1 : newHead 20 20 fedState = some ⟨7, 5⟩ := by decide
    rw [h1] at hh
    rw [← Option.some.inj hh] at hor
    rcases hor with hor | hor
    · exact absurd hor (by decide)
    · exact absurd hor (by decide)

/-- C8: for every tick that advances the snake (not paused, new head h off the snake), the call
returns when its sampling loops are given a draw that passes, and whenever it returns: if h is
the food cell or the cell of an active bonus item the streak afterwards is the streak before
plus exactly 1, and otherwise the streak afterwards is 0. -/
theorem gameLoop_streak (rows cols : Nat) (s : State) (r : Rand) (h : Cell)
    (hp : s.paused = false) (hh : newHead rows cols s = some h) (hon : h ∉ s.snake) :
    (drawsSuffice rows cols s r → ∃ t, gameLoop rows cols s r = some t) ∧
    ∀ t, gameLoop rows cols s r = some t →
      ((h = s.food ∨ s.superFood = some h) → t.streak = s.streak + 1) ∧
      (¬ (h = s.food ∨ s.superFood = some h) → t.streak = 0) := by
  refine ⟨gameLoop_returns rows cols s r (newHead_some_ne_nil hh), ?_⟩
  intro t ht
  by_cases hf : h = s.food
  · have h1 := (gameLoop_food rows cols s r h t hp hh hon hf ht).2.2.1
    exact ⟨fun _ => h1, fun hn => absurd (Or.inl hf) hn⟩
  · by_cases hs : s.superFood = some h
    · rw [gameLoop_superFood rows cols s r h hp hh hon hf hs] at ht
      have h1 := (Option.some.inj ht).symm
      exact ⟨fun _ => by rw [h1, finishTick_streak], fun hn => absurd (Or.inr hs) hn⟩
    · rw [gameLoop_move rows cols s r h hp hh hon hf hs] at ht
      have h1 := (Option.some.inj ht).symm
      refine ⟨fun he => ?_, fun _ => by rw [h1, finishTick_streak]⟩
      rcases he with he | he
      · exact absurd he hf
      · exact absurd he hs

/-- Witness of C8: the first tick of the game eats the food at (6,5) and the streak goes from 0
to 1. -/
theorem gameLoop_streak_witness :
    ∃ t, gameLoop 20 20 startState plainRand = some t ∧ t.streak = 0 + 1 := by
  have H := gameLoop_streak 20 20 startState plainRand ⟨6, 5⟩ rfl (by decide) (by decide)
  exact ⟨fedState, gameLoop_startState_plain,
    (H.2 fedState gameLoop_startState_plain).1 (Or.inl rfl)⟩

/-- C4: in every state reachable from initGame by ticks, key inputs (direction and pause) and
restarts, the snake is non-empty (length at least 1) and contains no duplicate cells. -/
theorem reachable_snake_nodup (rows cols : Nat) (s : State) (h : Reachable rows cols s) :
    1 ≤ s.snake.length ∧ s.snake.Nodup := by
  have key : s.snake ≠ [] ∧ s.snake.Nodup := by
    induction h with
    | load draws s _ _ hi =>
      have h1 : (startGame s).snake = [⟨5, 5⟩] := (initGame_fields _ _ _ hi).1
      rw [h1]
      exact ⟨List.cons_ne_nil _ _, List.nodup_singleton _⟩
    | restart s draws t _ hi _ =>
      have h1 : (startGame t).snake = [⟨5, 5⟩] := (initGame_fields _ _ _ hi).1
      rw [h1]
      exact ⟨List.cons_ne_nil _ _, List.nodup_singleton _⟩
    | tick s r t _ _ ht ih => exact gameLoop_keeps_snake rows cols s r t ht ih.1 ih.2
    | key s k _ ih =>
      rw [(keydown_fields s k).1]
      exact ih
  exact ⟨List.length_pos.mpr key.1, key.2⟩

/-- Witness of C4: the state after the first tick of a game on the 20 by 20 grid. -/
theorem reachable_snake_nodup_witness :
    Reachable 20 20 fedState ∧ 1 ≤ fedState.snake.length ∧ fedState.snake.Nodup :=
  ⟨Reachable.tick _ _ _ startState_reachable rfl gameLoop_startState_plain,
    reachable_snake_nodup 20 20 fedState
      (Reachable.tick _ _ _ startState_reachable rfl gameLoop_startState_plain)⟩

/-- C5: in every state reachable from initGame by ticks (and by key inputs and restarts),
gameSpeed is a multiple of one half and 100 <= gameSpeed <= 150. -/
theorem reachable_gameSpeed_bounds (rows cols : Nat) (s : State) (h : Reachable rows cols s) :
    (∃ n : Int, s.gameSpeed = (n : ℚ) / 2) ∧ 100 ≤ s.gameSpeed ∧ s.gameSpeed ≤ 150 := by
  induction h with
  | load draws s _ _ hi =>
    have h1 : (startGame s).gameSpeed = 150 := (initGame_fields _ _ _ hi).2.1
    rw [h1]
    exact ⟨⟨300, by norm_num⟩, by norm_num, le_refl _⟩
  | restart s draws t _ hi _ =>
    have h1 : (startGame t).gameSpeed = 150 := (initGame_fields _ _ _ hi).2.1
    rw [h1]
    exact ⟨⟨300, by norm_num⟩, by norm_num, le_refl _⟩
  | tick s r t _ _ ht ih =>
    exact ⟨gameLoop_keeps_half rows cols s r t ht ih.1,
      gameLoop_keeps_speed rows cols s r t ht ih.2⟩
  | key s k _ ih =>
    rw [(keydown_fields s k).2.2.1]
    exact ih

/-- Witness of C5: the state after the first tick, where gameSpeed is 149. -/
theorem reachable_gameSpeed_bounds_witness :
    Reachable 20 20 fedState ∧ fedState.gameSpeed = 149 ∧
    (∃ n : Int, fedState.gameSpeed = (n : ℚ) / 2) ∧
    100 ≤ fedState.gameSpeed ∧ fedState.gameSpeed ≤ 150 :=
  ⟨Reachable.tick _ _ _ startState_reachable rfl gameLoop_startState_plain, rfl,
    reachable_gameSpeed_bounds 20 20 fedState
      (Reachable.tick _ _ _ startState_reachable rfl gameLoop_startState_plain)⟩

/-- C10: in every state reachable from initGame by ticks whose spawnFood calls return (and by
key inputs and restarts), the food cell is not a cell of the snake; and a food-eating tick from
such a state that returns leaves the new food cell off the snake, which then starts with the
new head. -/
theorem reachable_food_off_snake (rows cols : Nat) (s : State) (h : Reachable rows cols s) :
    s.food ∉ s.snake ∧
    ∀ (r : Rand) (t : State) (hd : Cell), s.paused = false → newHead rows cols s = some hd →
      hd ∉ s.snake → hd = s.food → gameLoop rows cols s r = some t →
      t.snake = hd :: s.snake ∧ t.food ∉ hd :: s.snake := by
  constructor
  · induction h with
    | load draws s _ _ hi => exact (initGame_fields _ _ _ hi).2.2.2
    | restart s draws t _ hi _ => exact (initGame_fields _ _ _ hi).2.2.2
    | tick s r t _ _ ht ih => exact gameLoop_keeps_food rows cols s r t ht ih
    | key s k _ ih =>
      rw [(keydown_fields s k).1, (keydown_fields s k).2.1]
      exact ih
  · intro r t hd hp hh hon hf ht
    obtain ⟨h1, _, _, _, _, _, h3, _⟩ := gameLoop_food rows cols s r hd t hp hh hon hf ht
    exact ⟨h1, (spawnFood_some _ _ _ _ h3).2.1⟩

/-- Witness of C10: the start state, whose first tick eats the food at (6,5); the new food (12,7)
is off the snake [(6,5), (5,5)]. -/
theorem reachable_food_off_snake_witness :
    Reachable 20 20 startState ∧ startState.food ∉ startState.snake ∧
    fedState.snake = ⟨6, 5⟩ :: startState.snake ∧
    fedState.food ∉ (⟨6, 5⟩ : Cell) :: startState.snake :=
  ⟨startState_reachable, (reachable_food_off_snake 20 20 startState startState_reachable).1,
    (reachable_food_off_snake 20 20 startState startState_reachable).2 plainRand fedState
      ⟨6, 5⟩ rfl (by decide) (by decide) rfl gameLoop_startState_plain⟩

/-- C2, evaluated where it fails: after the first tick of a game the snake [(6,5), (5,5)] has
just moved in direction (1,0); the keys ArrowUp and ArrowLeft, both handled before the next
tick, leave the direction (-1,0), the exact opposite, and the next call of gameLoop puts the
head on the second segment (5,5) and ends the game. -/
theorem keydown_twice_reverses :
    gameLoop 20 20 startState plainRand = some fedState ∧
    Reachable 20 20 (keydown (keydown fedState Key.arrowUp) Key.arrowLeft) ∧
    startState.dir = ⟨1, 0⟩ ∧ fedState.snake = [⟨6, 5⟩, ⟨5, 5⟩] ∧
    (keydown (keydown fedState Key.arrowUp) Key.arrowLeft).dir = ⟨-1, 0⟩ ∧
    newHead 20 20 (keydown (keydown fedState Key.arrowUp) Key.arrowLeft) = some ⟨5, 5⟩ ∧
    fedState.snake.get? 1 = some ⟨5, 5⟩ ∧
    ∀ r, gameLoop 20 20 (keydown (keydown fedState Key.arrowUp) Key.arrowLeft) r =
      some (gameOver (keydown (keydown fedState Key.arrowUp) Key.arrowLeft)) := by
  refine ⟨gameLoop_startState_plain, ?_, rfl, rfl, by decide, by decide, by decide, ?_⟩
  · exact Reachable.key _ _ (Reachable.key _ _
      (Reachable.tick _ _ _ startState_reachable rfl gameLoop_startState_plain))
  · intro r
    exact gameLoop_collision 20 20 _ r ⟨5, 5⟩ (by decide) (by decide) (by decide)

/-- C3, evaluated where it fails: in the first tick of a game the snake eats the food, the new
food is drawn at (12,7), the bonus item is triggered and its draw (12,7) is accepted, because
the loop of spawnFood compares a candidate with the snake and with superFood only; the state
reached has the bonus item on the food cell. -/
theorem superFood_spawns_on_food :
    gameLoop 20 20 startState bonusRand = some overlapState ∧
    Reachable 20 20 overlapState ∧
    overlapState.food = ⟨12, 7⟩ ∧ overlapState.superFood = some overlapState.food ∧
    spawnFood overlapState.snake none [overlapState.food] = some overlapState.food :=
  ⟨gameLoop_startState_bonus,
    Reachable.tick _ _ _ startState_reachable rfl gameLoop_startState_bonus,
    rfl, rfl, by decide⟩

/-- C9: for every stored list L, name n, integer score s and date d, saveScore stores exactly
the first 5 elements of the stable sort by descending score of L followed by the new entry
(score s, name n or Anonymous when n is empty), and returns true; that sort exists and is
unique; the stored list has at most 5 entries, is in non-increasing score order, and for each
score its entries appear in their earlier relative order (they are the first entries of that
score in L followed by the new entry). -/
theorem saveScore_stores_top5 (L : List Entry) (n : String) (sc : Int) (d : String) :
    (newEntry n sc d).score = sc ∧ (newEntry n sc d).date = d ∧
    (n = "" → (newEntry n sc d).name = "Anonymous") ∧
    (n ≠ "" → (newEntry n sc d).name = n) ∧
    ∃ T : List Entry,
      IsStableSortByScoreDesc (L ++ [newEntry n sc d]) T ∧
      (∀ T', IsStableSortByScoreDesc (L ++ [newEntry n sc d]) T' → T' = T) ∧
      saveScore (some L) n sc d = (some (T.take 5), true) ∧
      (T.take 5).length ≤ 5 ∧
      (T.take 5).Pairwise (fun a b => b.score ≤ a.score) ∧
      ∀ k : Int, (T.take 5).filter (fun a => decide (a.score = k)) <+:
        (L ++ [newEntry n sc d]).filter (fun a => decide (a.score = k)) := by
  refine ⟨rfl, rfl, fun h => by simp [newEntry, h], fun h => by simp [newEntry, h], ?_⟩
  have hT := arraySort_isStableSort (L ++ [newEntry n sc d])
  refine ⟨arraySort (fun a b => b.score - a.score) (L ++ [newEntry n sc d]), hT, ?_, rfl, ?_,
    ?_, ?_⟩
  · intro T' hT'
    exact stableSort_unique T' _ hT'.2.1 hT.2.1 (fun k => (hT'.2.2 k).trans (hT.2.2 k).symm)
  · simp [List.length_take]
  · exact hT.2.1.sublist (List.take_sublist _ _)
  · intro k
    rw [← hT.2.2 k]
    exact (List.take_prefix 5 _).filter _

/-- Witness of C9: stored scores [100,90,80,70,60] and a new score 85 give [100,90,85,80,70];
an empty name is stored as Anonymous. -/
theorem saveScore_stores_top5_witness :
    ((saveScore (some fiveEntries) "" 85 "6/1/2025").1.getD []).map Entry.score =
      [100, 90, 85, 80, 70] ∧
    ((saveScore (some fiveEntries) "" 85 "6/1/2025").1.getD []).map Entry.name =
      ["Ann", "Ben", "Anonymous", "Cy", "Di"] ∧
    (saveScore (some []) "" 42 "6/1/2025").1 = some [⟨"Anonymous", 42, "6/1/2025"⟩] ∧
    (newEntry "" 85 "6/1/2025").name = "Anonymous" :=
  ⟨by decide, by decide, by decide,
    (saveScore_stores_top5 fiveEntries "" 85 "6/1/2025").2.2.1 rfl⟩

end SnakeGame
